import Mathlib

/-!
Verification of the car rental system (`car_rental.py`, `utils.py`).

The data model and operations below are a shallow embedding of the Python
source.  Python object references (a `Rental` holds references to its `Car`
and `Customer` objects) are modelled as indices into the manager's ordered
collections, since `add_car` / `add_customer` append fresh objects and
nothing ever removes a car or a customer.  `datetime` timestamps are
modelled as integers measured in days (Python timestamps are integral
microsecond counts; days are the only granularity the program manipulates),
so `timedelta(days=d)` is addition of `d`.  Monetary amounts are modelled as
integers as well.  Every operation that reads `datetime.now()` takes the
current time as an explicit parameter.
-/

/-- Embedding of `Car` from `car_rental.py`: identity fields plus the mutable
`available` flag.  `daily_rate` (a Python float used as an exact decimal
amount) is modelled as an integer amount. -/
structure Car where
  carId : String
  make : String
  model : String
  year : Int
  dailyRate : ℤ
  available : Bool := true
deriving Repr, DecidableEq, Inhabited

/-- Embedding of `Customer` from `car_rental.py`. -/
structure Customer where
  customerId : String
  name : String
  email : String
  phone : String
deriving Repr, DecidableEq, Inhabited

/-- Embedding of `Rental` from `car_rental.py`.  `customerIdx` and `carIdx`
are the positions of the referenced `Customer` and `Car` objects in the
manager's collections (the embedding of Python object references). -/
structure Rental where
  rentalId : String
  customerIdx : Nat
  carIdx : Nat
  startDate : ℤ
  days : Int
  endDate : ℤ
  totalCost : ℤ
  returned : Bool
deriving Repr, DecidableEq, Inhabited

/-- Embedding of `Rental.__init__`: `end_date = start_date + timedelta(days=days)`
and `total_cost = car.daily_rate * days`, with `returned` initially false. -/
def Rental.create (rentalId : String) (customerIdx carIdx : Nat) (car : Car)
    (startDate : ℤ) (days : Int) : Rental :=
  { rentalId := rentalId
    customerIdx := customerIdx
    carIdx := carIdx
    startDate := startDate
    days := days
    endDate := startDate + days
    totalCost := car.dailyRate * days
    returned := false }

/-- The decimal digit character for `d`, i.e. `chr(48 + d)`. -/
def digitChar (d : Nat) : Char := Char.ofNat (48 + d)

/-- Little-endian decimal digits of `n`, written with an explicit fuel
argument so the recursion is structural (and therefore evaluates by plain
reduction); `digitsRev n n` gives the digits of `n` since the value shrinks
at every division by ten. -/
def digitsRev (fuel : Nat) (n : Nat) : List Nat :=
  match fuel, n with
  | _, 0 => []
  | 0, _ => []
  | f + 1, m + 1 => ((m + 1) % 10) :: digitsRev f ((m + 1) / 10)

/-- The decimal digit characters of `n`, most significant first
(the digit list is little-endian, hence the reversal). -/
def natDecimalChars (n : Nat) : List Char :=
  ((digitsRev n n).map digitChar).reverse

/-- Left-pad a character list with `'0'` to width 4, embedding Python's
`{n:04d}` format directive. -/
def zeroPad4 (cs : List Char) : List Char :=
  List.replicate (4 - cs.length) '0' ++ cs

/-- Embedding of the rental-id format string `f"R{n:04d}"` from `rent_car`. -/
def rentalIdFor (n : Nat) : String :=
  String.mk ('R' :: zeroPad4 (natDecimalChars n))

/-- Embedding of `CarRentalSystem.__init__`: the manager state is the three
ordered collections plus the retention parameter (default 30 days). -/
structure CarRentalSystem where
  cars : List Car
  customers : List Customer
  rentals : List Rental
  rentalRetentionDays : Int
deriving Repr, DecidableEq, Inhabited

/-- A freshly constructed manager: empty collections, retention 30. -/
def emptySystem : CarRentalSystem :=
  { cars := [], customers := [], rentals := [], rentalRetentionDays := 30 }

/-- Index of the first element satisfying `p`, mirroring the linear scans
`find_car` / `find_customer` and the loop in `return_car` (which return the
first matching object). -/
def findFirstIdx (p : α → Bool) : List α → Option Nat
  | [] => none
  | a :: as => if p a then some 0 else (findFirstIdx p as).map (· + 1)

/-- Embedding of `CarRentalSystem.add_car`: append to the fleet. -/
def addCar (s : CarRentalSystem) (car : Car) : CarRentalSystem :=
  { s with cars := s.cars ++ [car] }

/-- Embedding of `CarRentalSystem.add_customer`: append to the roster. -/
def addCustomer (s : CarRentalSystem) (customer : Customer) : CarRentalSystem :=
  { s with customers := s.customers ++ [customer] }

/-- Embedding of `CarRentalSystem.get_available_cars`. -/
def getAvailableCars (s : CarRentalSystem) : List Car :=
  s.cars.filter (·.available)

/-- Embedding of `CarRentalSystem.find_car` (returning the object's index,
the embedding of a Python reference; `none` embeds `None`). -/
def findCarIdx (s : CarRentalSystem) (carId : String) : Option Nat :=
  findFirstIdx (fun c => c.carId == carId) s.cars

/-- Embedding of `CarRentalSystem.find_customer`. -/
def findCustomerIdx (s : CarRentalSystem) (customerId : String) : Option Nat :=
  findFirstIdx (fun c => c.customerId == customerId) s.customers

/-- Embedding of `CarRentalSystem.rent_car`.  The Python method returns the
created `Rental` or `None`; the state component carries the mutation of
`self`.  The checks appear in source order: unknown customer, unknown car,
car not available.  There is no check on `days`. -/
def rentCar (s : CarRentalSystem) (customerId carId : String) (days : Int)
    (now : ℤ) : Option Rental × CarRentalSystem :=
  match findCustomerIdx s customerId with
  | none => (none, s)
  | some ci =>
    match findCarIdx s carId with
    | none => (none, s)
    | some vi =>
      let car := s.cars.getD vi default
      if car.available then
        let rental := Rental.create (rentalIdFor (s.rentals.length + 1)) ci vi car now days
        (some rental,
          { s with cars := s.cars.set vi { car with available := false },
                   rentals := s.rentals ++ [rental] })
      else
        (none, s)

/-- The retention predicate of `cleanup_old_rentals`: a rental is kept iff
`not rental.returned or rental.end_date >= cutoff_date`. -/
def retainRental (cutoff : ℤ) (r : Rental) : Bool :=
  !r.returned || decide (cutoff ≤ r.endDate)

/-- Embedding of `CarRentalSystem.cleanup_old_rentals`: on an empty rentals
list return 0 immediately; otherwise keep exactly the rentals satisfying
`retainRental` for `cutoff = now - retention_days` and return how many were
dropped. -/
def cleanupOldRentals (s : CarRentalSystem) (now : ℤ) : Nat × CarRentalSystem :=
  if s.rentals.isEmpty then
    (0, s)
  else
    let cutoff : ℤ := now - s.rentalRetentionDays
    let kept := s.rentals.filter (retainRental cutoff)
    (s.rentals.length - kept.length, { s with rentals := kept })

/-- Embedding of `CarRentalSystem.return_car`: scan for the first rental with
the given id that is not yet returned; if found, mark it returned, set the
referenced car's `available` to `true`, run `cleanup_old_rentals`, and report
success; otherwise report failure with no state change. -/
def returnCar (s : CarRentalSystem) (rentalId : String) (now : ℤ) :
    Bool × CarRentalSystem :=
  match findFirstIdx (fun r => r.rentalId == rentalId && !r.returned) s.rentals with
  | none => (false, s)
  | some i =>
    let r := s.rentals.getD i default
    let car := s.cars.getD r.carIdx default
    let marked : CarRentalSystem :=
      { s with rentals := s.rentals.set i { r with returned := true },
               cars := s.cars.set r.carIdx { car with available := true } }
    (true, (cleanupOldRentals marked now).2)

/-- Embedding of `calculate_inventory_utilization` from `utils.py`.  The
Python function divides `rented_cars / total_cars` unguarded; when the fleet
is empty the division raises an uncaught `ZeroDivisionError`, embedded here
as the `Except.error` branch. -/
def calculateInventoryUtilization (s : CarRentalSystem) : Except String ℚ :=
  let totalCars := s.cars.length
  let availableCars := (getAvailableCars s).length
  let rentedCars := totalCars - availableCars
  if totalCars = 0 then
    Except.error "ZeroDivisionError"
  else
    Except.ok (((rentedCars : ℚ) / (totalCars : ℚ)) * 100)

/-! ### Helper lemmas about `findFirstIdx`, `List.getD`, and `List.countP` -/

theorem findFirstIdx_eq_none {p : α → Bool} {l : List α} :
    findFirstIdx p l = none ↔ ∀ x ∈ l, p x = false := by
  induction l with
  | nil => simp [findFirstIdx]
  | cons a as ih =>
    by_cases h : p a
    · simp [findFirstIdx, h]
    · simp [findFirstIdx, h, ih]

theorem findFirstIdx_some {p : α → Bool} {l : List α} {i : Nat} (d : α)
    (h : findFirstIdx p l = some i) : i < l.length ∧ p (l.getD i d) = true := by
  induction l generalizing i with
  | nil => simp [findFirstIdx] at h
  | cons a as ih =>
    by_cases ha : p a
    · simp only [findFirstIdx, ha, if_true, Option.some.injEq] at h
      subst h
      simpa using ha
    · rw [findFirstIdx, if_neg ha] at h
      cases hfd : findFirstIdx p as with
      | none => rw [hfd] at h; simp at h
      | some j =>
        rw [hfd] at h
        simp only [Option.map_some', Option.some.injEq] at h
        subst h
        have hih := ih hfd
        exact ⟨Nat.succ_lt_succ hih.1, by simpa using hih.2⟩

theorem getD_mem {l : List α} {i : Nat} (d : α) (h : i < l.length) :
    l.getD i d ∈ l := by
  simp only [List.getD_eq_getElem?_getD, List.getElem?_eq_getElem h, Option.getD_some]
  exact List.getElem_mem h

theorem getD_append_left {l l' : List α} {i : Nat} (d : α) (h : i < l.length) :
    (l ++ l').getD i d = l.getD i d := by
  simp [List.getD_eq_getElem?_getD, List.getElem?_append_left h]

theorem getD_concat_length {l : List α} (x d : α) :
    (l ++ [x]).getD l.length d = x := by
  simp [List.getD_eq_getElem?_getD, List.getElem?_concat_length]

theorem getD_set_self {l : List α} {i : Nat} (x d : α) (h : i < l.length) :
    (l.set i x).getD i d = x := by
  simp [List.getD_eq_getElem?_getD, List.getElem?_set_self h]

theorem getD_set_ne {l : List α} {i j : Nat} (x d : α) (h : i ≠ j) :
    (l.set i x).getD j d = l.getD j d := by
  simp [List.getD_eq_getElem?_getD, List.getElem?_set_ne h]

theorem countP_set {p : α → Bool} {l : List α} {i : Nat} (x d : α) (h : i < l.length) :
    (l.set i x).countP p + (if p (l.getD i d) then 1 else 0)
      = l.countP p + (if p x then 1 else 0) := by
  induction l generalizing i with
  | nil => simp at h
  | cons a as ih =>
    cases i with
    | zero => simp [List.countP_cons]; omega
    | succ j =>
      have hj : j < as.length := by simpa using h
      have := ih hj
      simp only [List.set_cons_succ, List.countP_cons, List.getD_cons_succ]
      omega

/-! ### Injectivity of the rental-id format on the digits it encodes -/

/-- Numeric value recovered from a big-endian list of digit characters. -/
def charsVal (cs : List Char) : Nat :=
  cs.foldl (fun a c => 10 * a + (c.toNat - 48)) 0

theorem digitChar_toNat {d : Nat} (hd : d < 10) : (digitChar d).toNat = 48 + d := by
  interval_cases d <;> rfl

theorem foldl_digit_chars (ds : List Nat) (hds : ∀ d ∈ ds, d < 10) (acc : Nat) :
    ((ds.map digitChar).reverse).foldl (fun a c => 10 * a + (c.toNat - 48)) acc
      = acc * 10 ^ ds.length + Nat.ofDigits 10 ds := by
  induction ds generalizing acc with
  | nil => simp
  | cons d ds ih =>
    have hd : d < 10 := hds d (by simp)
    have hds' : ∀ x ∈ ds, x < 10 := fun x hx => hds x (by simp [hx])
    simp only [List.map_cons, List.reverse_cons, List.foldl_append, List.foldl_cons,
      List.foldl_nil]
    rw [ih hds', digitChar_toNat hd, Nat.ofDigits_cons]
    have h48 : 48 + d - 48 = d := by omega
    rw [h48]
    simp only [Nat.cast_id, List.length_cons]
    ring

theorem charsVal_zeros_prefix (k : Nat) (cs : List Char) :
    charsVal (List.replicate k '0' ++ cs) = charsVal cs := by
  unfold charsVal
  rw [List.foldl_append]
  congr 1
  induction k with
  | zero => rfl
  | succ n ih =>
    rw [List.replicate_succ, List.foldl_cons]
    exact ih

theorem digitsRev_eq (fuel n : Nat) (h : n ≤ fuel) :
    digitsRev fuel n = Nat.digits 10 n := by
  induction fuel generalizing n with
  | zero =>
    have hn : n = 0 := by omega
    subst hn
    simp [digitsRev]
  | succ f ih =>
    cases n with
    | zero => simp [digitsRev]
    | succ m =>
      rw [digitsRev]
      have hdiv : (m + 1) / 10 ≤ f := by
        have := Nat.div_lt_self (Nat.succ_pos m) (by norm_num : (1 : Nat) < 10)
        omega
      rw [ih _ hdiv]
      rw [Nat.digits_def' (by norm_num : 1 < 10) (Nat.succ_pos m)]

theorem charsVal_natDecimalChars (n : Nat) : charsVal (natDecimalChars n) = n := by
  unfold natDecimalChars
  rw [digitsRev_eq n n le_rfl]
  have h := foldl_digit_chars (Nat.digits 10 n)
    (fun d hd => Nat.digits_lt_base (by norm_num) hd) 0
  unfold charsVal
  rw [h]
  simp [Nat.ofDigits_digits]

theorem charsVal_zeroPad4 (cs : List Char) : charsVal (zeroPad4 cs) = charsVal cs :=
  charsVal_zeros_prefix _ cs

theorem rentalIdFor_inj {m n : Nat} (h : rentalIdFor m = rentalIdFor n) : m = n := by
  unfold rentalIdFor at h
  have hdata : 'R' :: zeroPad4 (natDecimalChars m) = 'R' :: zeroPad4 (natDecimalChars n) :=
    congrArg String.data h
  have h2 : zeroPad4 (natDecimalChars m) = zeroPad4 (natDecimalChars n) := by
    injection hdata
  have h3 := congrArg charsVal h2
  rwa [charsVal_zeroPad4, charsVal_zeroPad4, charsVal_natDecimalChars,
    charsVal_natDecimalChars] at h3

/-! ### Characterization lemmas for the operations -/

/-- The state produced by the found branch of `return_car`, before cleanup:
rental `i` marked returned and its car made available. -/
def markReturned (s : CarRentalSystem) (i : Nat) : CarRentalSystem :=
  let r := s.rentals.getD i default
  let car := s.cars.getD r.carIdx default
  { s with rentals := s.rentals.set i { r with returned := true },
           cars := s.cars.set r.carIdx { car with available := true } }

theorem returnCar_of_none {s : CarRentalSystem} {rid : String} (now : ℤ)
    (h : findFirstIdx (fun r => r.rentalId == rid && !r.returned) s.rentals = none) :
    returnCar s rid now = (false, s) := by
  unfold returnCar
  rw [h]

theorem returnCar_of_some {s : CarRentalSystem} {rid : String} (now : ℤ) {i : Nat}
    (h : findFirstIdx (fun r => r.rentalId == rid && !r.returned) s.rentals = some i) :
    returnCar s rid now = (true, (cleanupOldRentals (markReturned s i) now).2) := by
  unfold returnCar markReturned
  rw [h]

theorem rentCar_of_noCustomer {s : CarRentalSystem} {cid vid : String} (days : Int) (now : ℤ)
    (h : findCustomerIdx s cid = none) :
    rentCar s cid vid days now = (none, s) := by
  unfold rentCar
  rw [h]

theorem rentCar_of_noCar {s : CarRentalSystem} {cid vid : String} (days : Int) (now : ℤ)
    {ci : Nat} (hc : findCustomerIdx s cid = some ci) (h : findCarIdx s vid = none) :
    rentCar s cid vid days now = (none, s) := by
  unfold rentCar
  rw [hc, h]

theorem rentCar_of_notAvailable {s : CarRentalSystem} {cid vid : String} (days : Int) (now : ℤ)
    {ci vi : Nat} (hc : findCustomerIdx s cid = some ci) (hv : findCarIdx s vid = some vi)
    (h : (s.cars.getD vi default).available = false) :
    rentCar s cid vid days now = (none, s) := by
  unfold rentCar
  rw [hc, hv]
  simp [h, -List.getD_eq_getElem?_getD]

theorem rentCar_of_available {s : CarRentalSystem} {cid vid : String} (days : Int) (now : ℤ)
    {ci vi : Nat} (hc : findCustomerIdx s cid = some ci) (hv : findCarIdx s vid = some vi)
    (h : (s.cars.getD vi default).available = true) :
    rentCar s cid vid days now =
      (some (Rental.create (rentalIdFor (s.rentals.length + 1)) ci vi
              (s.cars.getD vi default) now days),
       { s with
           cars := s.cars.set vi { s.cars.getD vi default with available := false },
           rentals := s.rentals ++
             [Rental.create (rentalIdFor (s.rentals.length + 1)) ci vi
               (s.cars.getD vi default) now days] }) := by
  unfold rentCar
  rw [hc, hv]
  simp [h, -List.getD_eq_getElem?_getD]

/-! ### Frame and shape lemmas for `cleanupOldRentals` -/

theorem cleanup_rentals (s : CarRentalSystem) (now : ℤ) :
    (cleanupOldRentals s now).2.rentals
      = s.rentals.filter (retainRental (now - s.rentalRetentionDays)) := by
  unfold cleanupOldRentals
  by_cases h : s.rentals.isEmpty
  · rw [if_pos h]
    rw [List.isEmpty_iff.mp h]
    rfl
  · rw [if_neg h]

theorem cleanup_cars (s : CarRentalSystem) (now : ℤ) :
    (cleanupOldRentals s now).2.cars = s.cars := by
  unfold cleanupOldRentals
  by_cases h : s.rentals.isEmpty
  · rw [if_pos h]
  · rw [if_neg h]

theorem cleanup_customers (s : CarRentalSystem) (now : ℤ) :
    (cleanupOldRentals s now).2.customers = s.customers := by
  unfold cleanupOldRentals
  by_cases h : s.rentals.isEmpty
  · rw [if_pos h]
  · rw [if_neg h]

theorem cleanup_retention (s : CarRentalSystem) (now : ℤ) :
    (cleanupOldRentals s now).2.rentalRetentionDays = s.rentalRetentionDays := by
  unfold cleanupOldRentals
  by_cases h : s.rentals.isEmpty
  · rw [if_pos h]
  · rw [if_neg h]

theorem cleanup_count (s : CarRentalSystem) (now : ℤ) :
    (cleanupOldRentals s now).1
      = s.rentals.length - (cleanupOldRentals s now).2.rentals.length := by
  unfold cleanupOldRentals
  by_cases h : s.rentals.isEmpty
  · rw [if_pos h]
    rw [List.isEmpty_iff.mp h]
    rfl
  · rw [if_neg h]

theorem retainRental_eq_true {cutoff : ℤ} {r : Rental} :
    retainRental cutoff r = true ↔ (r.returned = false ∨ cutoff ≤ r.endDate) := by
  unfold retainRental
  cases hr : r.returned <;> simp

theorem retainRental_of_unreturned {cutoff : ℤ} {r : Rental} (h : r.returned = false) :
    retainRental cutoff r = true := by
  unfold retainRental
  rw [h]
  simp

/-! ### Reachability by the public operations -/

/-- States reachable from a fresh manager by the public operations, with
arbitrary call arguments and call times. -/
inductive Reachable : CarRentalSystem → Prop
  | empty : Reachable emptySystem
  | addCar (s : CarRentalSystem) (c : Car) :
      Reachable s → Reachable (addCar s c)
  | addCustomer (s : CarRentalSystem) (c : Customer) :
      Reachable s → Reachable (addCustomer s c)
  | rentCar (s : CarRentalSystem) (customerId carId : String) (days : Int) (now : ℤ) :
      Reachable s → Reachable (rentCar s customerId carId days now).2
  | returnCar (s : CarRentalSystem) (rentalId : String) (now : ℤ) :
      Reachable s → Reachable (returnCar s rentalId now).2
  | cleanup (s : CarRentalSystem) (now : ℤ) :
      Reachable s → Reachable (cleanupOldRentals s now).2

/-- Reachability restricted to runs in which every car handed to `add_car`
is available at the moment it is added (the `Car` constructor's default). -/
inductive ReachableA : CarRentalSystem → Prop
  | empty : ReachableA emptySystem
  | addCar (s : CarRentalSystem) (c : Car) (hc : c.available = true) :
      ReachableA s → ReachableA (addCar s c)
  | addCustomer (s : CarRentalSystem) (c : Customer) :
      ReachableA s → ReachableA (addCustomer s c)
  | rentCar (s : CarRentalSystem) (customerId carId : String) (days : Int) (now : ℤ) :
      ReachableA s → ReachableA (rentCar s customerId carId days now).2
  | returnCar (s : CarRentalSystem) (rentalId : String) (now : ℤ) :
      ReachableA s → ReachableA (returnCar s rentalId now).2
  | cleanup (s : CarRentalSystem) (now : ℤ) :
      ReachableA s → ReachableA (cleanupOldRentals s now).2

/-- Reachability restricted to runs in which no retention cleanup (direct or
triggered inside `return_car`) has discarded any rental yet. -/
inductive NoRemovalReach : CarRentalSystem → Prop
  | empty : NoRemovalReach emptySystem
  | addCar (s : CarRentalSystem) (c : Car) :
      NoRemovalReach s → NoRemovalReach (addCar s c)
  | addCustomer (s : CarRentalSystem) (c : Customer) :
      NoRemovalReach s → NoRemovalReach (addCustomer s c)
  | rentCar (s : CarRentalSystem) (customerId carId : String) (days : Int) (now : ℤ) :
      NoRemovalReach s → NoRemovalReach (rentCar s customerId carId days now).2
  | returnCar (s : CarRentalSystem) (rentalId : String) (now : ℤ) :
      NoRemovalReach s →
      (returnCar s rentalId now).2.rentals.length = s.rentals.length →
      NoRemovalReach (returnCar s rentalId now).2
  | cleanup (s : CarRentalSystem) (now : ℤ) :
      NoRemovalReach s →
      (cleanupOldRentals s now).1 = 0 →
      NoRemovalReach (cleanupOldRentals s now).2

/-! ### The availability invariant -/

/-- Number of un-returned rentals referencing the car at position `i`. -/
def unreturnedCount (s : CarRentalSystem) (i : Nat) : Nat :=
  s.rentals.countP (fun r => r.carIdx == i && !r.returned)

/-- Well-formedness: every rental references a car in the fleet, and each
car is unavailable exactly when one un-returned rental references it. -/
def SystemWF (s : CarRentalSystem) : Prop :=
  (∀ r ∈ s.rentals, r.carIdx < s.cars.length) ∧
  (∀ i, i < s.cars.length →
    unreturnedCount s i = if (s.cars.getD i default).available then 0 else 1)

theorem systemWF_empty : SystemWF emptySystem := by
  constructor
  · intro r hr
    simp [emptySystem] at hr
  · intro i hi
    simp [emptySystem] at hi

theorem systemWF_addCar {s : CarRentalSystem} {c : Car} (h : SystemWF s)
    (hc : c.available = true) : SystemWF (addCar s c) := by
  obtain ⟨hval, hcnt⟩ := h
  constructor
  · intro r hr
    have hlt := hval r hr
    dsimp only [addCar] at hr ⊢
    rw [List.length_append]
    omega
  · intro i hi
    dsimp only [addCar] at hi ⊢
    rw [List.length_append, List.length_singleton] at hi
    have hcount : unreturnedCount (addCar s c) i = unreturnedCount s i := rfl
    by_cases hlt : i < s.cars.length
    · rw [getD_append_left default hlt]
      exact hcnt i hlt
    · have hieq : i = s.cars.length := by omega
      subst hieq
      rw [getD_concat_length c default, hc, if_pos rfl]
      unfold unreturnedCount
      rw [List.countP_eq_zero]
      intro r hr
      have := hval r hr
      simp only [Bool.and_eq_true, beq_iff_eq, not_and]
      intro hcar
      omega

theorem systemWF_addCustomer {s : CarRentalSystem} (c : Customer) (h : SystemWF s) :
    SystemWF (addCustomer s c) :=
  h

theorem unreturnedCount_cleanup (s : CarRentalSystem) (now : ℤ) (i : Nat) :
    unreturnedCount (cleanupOldRentals s now).2 i = unreturnedCount s i := by
  unfold unreturnedCount
  rw [cleanup_rentals, List.countP_filter]
  apply List.countP_congr
  intro r _
  cases hret : r.returned
  · simp [retainRental, hret]
  · simp [hret]

theorem systemWF_cleanup {s : CarRentalSystem} (now : ℤ) (h : SystemWF s) :
    SystemWF (cleanupOldRentals s now).2 := by
  obtain ⟨hval, hcnt⟩ := h
  constructor
  · intro r hr
    rw [cleanup_rentals] at hr
    rw [cleanup_cars]
    exact hval r (List.mem_of_mem_filter hr)
  · intro i hi
    rw [cleanup_cars] at hi
    rw [cleanup_cars, unreturnedCount_cleanup]
    exact hcnt i hi

theorem systemWF_rentSuccess {s : CarRentalSystem} (ci vi : Nat) (days : Int) (now : ℤ)
    (h : SystemWF s) (hvi : vi < s.cars.length)
    (hav : (s.cars.getD vi default).available = true) :
    SystemWF { s with
      cars := s.cars.set vi { s.cars.getD vi default with available := false },
      rentals := s.rentals ++ [Rental.create (rentalIdFor (s.rentals.length + 1)) ci vi
        (s.cars.getD vi default) now days] } := by
  obtain ⟨hval, hcnt⟩ := h
  have hcnt0 : unreturnedCount s vi = 0 := by
    rw [hcnt vi hvi, hav, if_pos rfl]
  constructor
  · intro r hr
    dsimp only at hr ⊢
    rw [List.length_set]
    rcases List.mem_append.mp hr with hold | hnew
    · exact hval r hold
    · rw [List.mem_singleton] at hnew
      subst hnew
      exact hvi
  · intro i hi
    dsimp only at hi ⊢
    rw [List.length_set] at hi
    have hsplit : unreturnedCount { s with
        cars := s.cars.set vi { s.cars.getD vi default with available := false },
        rentals := s.rentals ++ [Rental.create (rentalIdFor (s.rentals.length + 1)) ci vi
          (s.cars.getD vi default) now days] } i
        = unreturnedCount s i
          + (if vi == i then 1 else 0) := by
      unfold unreturnedCount
      dsimp only
      rw [List.countP_append]
      congr 1
      rw [List.countP_cons]
      dsimp only [Rental.create]
      simp
    rw [hsplit]
    by_cases hvieq : vi = i
    · subst hvieq
      rw [getD_set_self _ _ hvi]
      rw [hcnt0]
      simp
    · rw [getD_set_ne _ _ hvieq]
      have : (vi == i) = false := by
        simp [hvieq]
      rw [this]
      simpa using hcnt i hi

theorem systemWF_rentCar {s : CarRentalSystem} (cid vid : String) (days : Int) (now : ℤ)
    (h : SystemWF s) : SystemWF (rentCar s cid vid days now).2 := by
  cases hc : findCustomerIdx s cid with
  | none => rw [rentCar_of_noCustomer days now hc]; exact h
  | some ci =>
    cases hv : findCarIdx s vid with
    | none => rw [rentCar_of_noCar days now hc hv]; exact h
    | some vi =>
      have hvi : vi < s.cars.length := (findFirstIdx_some default hv).1
      cases hav : (s.cars.getD vi default).available with
      | false => rw [rentCar_of_notAvailable days now hc hv hav]; exact h
      | true =>
        rw [rentCar_of_available days now hc hv hav]
        exact systemWF_rentSuccess ci vi days now h hvi hav

theorem systemWF_markReturned {s : CarRentalSystem} {rid : String} {i : Nat}
    (h : SystemWF s)
    (hfind : findFirstIdx (fun r => r.rentalId == rid && !r.returned) s.rentals = some i) :
    SystemWF (markReturned s i) := by
  obtain ⟨hval, hcnt⟩ := h
  obtain ⟨hi, hp⟩ := findFirstIdx_some default hfind
  simp only [Bool.and_eq_true, beq_iff_eq, Bool.not_eq_true'] at hp
  have hj : (s.rentals.getD i default).carIdx < s.cars.length :=
    hval _ (getD_mem default hi)
  have hpos : 0 < unreturnedCount s (s.rentals.getD i default).carIdx :=
    List.countP_pos_iff.mpr ⟨s.rentals.getD i default, getD_mem default hi,
      by rw [hp.2]; simp⟩
  have hone : (s.cars.getD (s.rentals.getD i default).carIdx default).available = false ∧
      unreturnedCount s (s.rentals.getD i default).carIdx = 1 := by
    have hcj := hcnt _ hj
    cases havl : (s.cars.getD (s.rentals.getD i default).carIdx default).available with
    | false => rw [havl, if_neg (by simp)] at hcj; exact ⟨rfl, hcj⟩
    | true => rw [havl, if_pos rfl] at hcj; rw [hcj] at hpos; exact absurd hpos (by simp)
  unfold markReturned
  dsimp only
  constructor
  · intro x hx
    dsimp only at hx ⊢
    rw [List.length_set]
    rcases List.mem_or_eq_of_mem_set hx with hold | hxeq
    · exact hval x hold
    · subst hxeq
      exact hj
  · intro i' hi'
    dsimp only at hi' ⊢
    rw [List.length_set] at hi'
    have hkey := countP_set (p := fun x => x.carIdx == i' && !x.returned)
      (l := s.rentals) { s.rentals.getD i default with returned := true } default hi
    dsimp only at hkey
    by_cases hij : (s.rentals.getD i default).carIdx = i'
    · subst hij
      have hchg : (if ((s.rentals.getD i default).carIdx == (s.rentals.getD i default).carIdx
          && !(s.rentals.getD i default).returned) = true then 1 else 0) = 1 := by
        rw [hp.2]; simp
      have hnew : (if ((s.rentals.getD i default).carIdx == (s.rentals.getD i default).carIdx
          && !true) = true then 1 else 0) = 0 := by
        simp
      rw [hchg, hnew] at hkey
      unfold unreturnedCount at hone ⊢
      dsimp only
      rw [getD_set_self _ _ hj]
      have hav : ({ s.cars.getD (s.rentals.getD i default).carIdx default with
          available := true } : Car).available = true := rfl
      rw [hav, if_pos rfl]
      omega
    · have hchg : (if ((s.rentals.getD i default).carIdx == i'
          && !(s.rentals.getD i default).returned) = true then 1 else 0) = 0 := by
        simp [-List.getD_eq_getElem?_getD, hij]
      have hnew : (if ((s.rentals.getD i default).carIdx == i'
          && !true) = true then 1 else 0) = 0 := by
        simp
      rw [hchg, hnew] at hkey
      have hcnti := hcnt i' hi'
      unfold unreturnedCount at hcnti ⊢
      dsimp only
      rw [getD_set_ne _ _ hij]
      rw [← hcnti] at *
      omega

theorem systemWF_returnCar {s : CarRentalSystem} (rid : String) (now : ℤ)
    (h : SystemWF s) : SystemWF (returnCar s rid now).2 := by
  cases hfind : findFirstIdx (fun r => r.rentalId == rid && !r.returned) s.rentals with
  | none => rw [returnCar_of_none now hfind]; exact h
  | some i =>
    rw [returnCar_of_some now hfind]
    exact systemWF_cleanup now (systemWF_markReturned h hfind)

theorem reachableA_wf {s : CarRentalSystem} (h : ReachableA s) : SystemWF s := by
  induction h with
  | empty => exact systemWF_empty
  | addCar s c hc _ ih => exact systemWF_addCar ih hc
  | addCustomer s c _ ih => exact systemWF_addCustomer c ih
  | rentCar s cid vid days now _ ih => exact systemWF_rentCar cid vid days now ih
  | returnCar s rid now _ ih => exact systemWF_returnCar rid now ih
  | cleanup s now _ ih => exact systemWF_cleanup now ih

/-! ### Rental-id bookkeeping under no-removal runs -/

theorem filter_length_eq {p : α → Bool} {l : List α}
    (h : (l.filter p).length = l.length) : l.filter p = l := by
  induction l with
  | nil => rfl
  | cons a as ih =>
    by_cases ha : p a
    · rw [List.filter_cons_of_pos ha] at h ⊢
      rw [List.length_cons, List.length_cons] at h
      rw [ih (Nat.succ_injective h)]
    · rw [List.filter_cons_of_neg ha] at h
      have hle := List.length_filter_le p as
      rw [List.length_cons] at h
      exfalso
      omega

theorem cleanup_rentals_of_length_eq {t : CarRentalSystem} {now : ℤ}
    (hl : (cleanupOldRentals t now).2.rentals.length = t.rentals.length) :
    (cleanupOldRentals t now).2.rentals = t.rentals := by
  rw [cleanup_rentals] at hl ⊢
  exact filter_length_eq hl

/-- In a state with no removals yet, the rental at position `j` carries the
id generated when the collection had length `j`. -/
def idsSequential (s : CarRentalSystem) : Prop :=
  ∀ j, j < s.rentals.length → (s.rentals.getD j default).rentalId = rentalIdFor (j + 1)

theorem idsSequential_rentCar {s : CarRentalSystem} (cid vid : String) (days : Int)
    (now : ℤ) (h : idsSequential s) : idsSequential (rentCar s cid vid days now).2 := by
  cases hc : findCustomerIdx s cid with
  | none => rw [rentCar_of_noCustomer days now hc]; exact h
  | some ci =>
    cases hv : findCarIdx s vid with
    | none => rw [rentCar_of_noCar days now hc hv]; exact h
    | some vi =>
      cases hav : (s.cars.getD vi default).available with
      | false => rw [rentCar_of_notAvailable days now hc hv hav]; exact h
      | true =>
        rw [rentCar_of_available days now hc hv hav]
        intro j hj
        dsimp only at hj ⊢
        rw [List.length_append, List.length_singleton] at hj
        by_cases hlt : j < s.rentals.length
        · rw [getD_append_left default hlt]
          exact h j hlt
        · have hjeq : j = s.rentals.length := by omega
          subst hjeq
          rw [getD_concat_length _ default]
          rfl

theorem idsSequential_markReturned {s : CarRentalSystem} {i : Nat}
    (hi : i < s.rentals.length) (h : idsSequential s) :
    idsSequential (markReturned s i) := by
  intro j hj
  unfold markReturned at hj ⊢
  dsimp only at hj ⊢
  rw [List.length_set] at hj
  by_cases hij : i = j
  · subst hij
    rw [getD_set_self _ _ hi]
    exact h i hj
  · rw [getD_set_ne _ _ hij]
    exact h j hj

theorem idsSequential_cleanup0 {s : CarRentalSystem} (now : ℤ)
    (h : idsSequential s) (h0 : (cleanupOldRentals s now).1 = 0) :
    idsSequential (cleanupOldRentals s now).2 := by
  have hcount := cleanup_count s now
  rw [h0] at hcount
  have hle : (cleanupOldRentals s now).2.rentals.length ≤ s.rentals.length := by
    rw [cleanup_rentals]
    exact List.length_filter_le _ _
  have hlen : (cleanupOldRentals s now).2.rentals.length = s.rentals.length := by omega
  have heq := cleanup_rentals_of_length_eq hlen
  intro j hj
  rw [heq] at hj ⊢
  exact h j hj

theorem noRemoval_idsSequential {s : CarRentalSystem} (h : NoRemovalReach s) :
    idsSequential s := by
  induction h with
  | empty => intro j hj; simp [emptySystem] at hj
  | addCar s c _ ih => exact ih
  | addCustomer s c _ ih => exact ih
  | rentCar s cid vid days now _ ih => exact idsSequential_rentCar cid vid days now ih
  | returnCar s rid now _ hlen ih =>
    cases hfind : findFirstIdx (fun r => r.rentalId == rid && !r.returned) s.rentals with
    | none => rw [returnCar_of_none now hfind]; exact ih
    | some i =>
      have hi : i < s.rentals.length := (findFirstIdx_some default hfind).1
      rw [returnCar_of_some now hfind] at hlen ⊢
      dsimp only at hlen
      have hmarked := idsSequential_markReturned hi ih
      have hmlen : (markReturned s i).rentals.length = s.rentals.length := by
        unfold markReturned
        dsimp only
        rw [List.length_set]
      apply idsSequential_cleanup0 now hmarked
      have hcount := cleanup_count (markReturned s i) now
      omega
  | cleanup s now _ h0 ih => exact idsSequential_cleanup0 now ih h0

/-! ### Rental cost and end-date are fixed at creation -/

theorem dailyRate_set_available (l : List Car) (vi : Nat) (b : Bool) (j : Nat) :
    ((l.set vi { l.getD vi default with available := b }).getD j default).dailyRate
      = (l.getD j default).dailyRate := by
  by_cases hj : vi = j
  · subst hj
    by_cases hlt : vi < l.length
    · rw [getD_set_self _ _ hlt]
    · rw [List.set_eq_of_length_le (Nat.le_of_not_lt hlt)]
  · rw [getD_set_ne _ _ hj]

/-- The creation-time facts recorded in every rental of a state: a valid car
reference, `totalCost` equal to that car's current daily rate times the day
count, and `endTime` equal to `startTime` plus the day count. -/
def CostInv (s : CarRentalSystem) : Prop :=
  ∀ r ∈ s.rentals, r.carIdx < s.cars.length ∧
    r.totalCost = (s.cars.getD r.carIdx default).dailyRate * r.days ∧
    r.endDate = r.startDate + r.days

theorem costInv_cleanup {s : CarRentalSystem} (now : ℤ) (h : CostInv s) :
    CostInv (cleanupOldRentals s now).2 := by
  intro r hr
  rw [cleanup_rentals] at hr
  rw [cleanup_cars]
  exact h r (List.mem_of_mem_filter hr)

theorem costInv_rentCar {s : CarRentalSystem} (cid vid : String) (days : Int) (now : ℤ)
    (h : CostInv s) : CostInv (rentCar s cid vid days now).2 := by
  cases hc : findCustomerIdx s cid with
  | none => rw [rentCar_of_noCustomer days now hc]; exact h
  | some ci =>
    cases hv : findCarIdx s vid with
    | none => rw [rentCar_of_noCar days now hc hv]; exact h
    | some vi =>
      have hvi : vi < s.cars.length := (findFirstIdx_some default hv).1
      cases hav : (s.cars.getD vi default).available with
      | false => rw [rentCar_of_notAvailable days now hc hv hav]; exact h
      | true =>
        rw [rentCar_of_available days now hc hv hav]
        intro r hr
        dsimp only at hr ⊢
        rw [List.length_set]
        rcases List.mem_append.mp hr with hold | hnew
        · obtain ⟨h1, h2, h3⟩ := h r hold
          exact ⟨h1, by rw [dailyRate_set_available]; exact h2, h3⟩
        · rw [List.mem_singleton] at hnew
          subst hnew
          refine ⟨hvi, ?_, rfl⟩
          show (s.cars.getD vi default).dailyRate * days = _
          rw [dailyRate_set_available]
          rfl

theorem costInv_markReturned {s : CarRentalSystem} {i : Nat}
    (hi : i < s.rentals.length) (h : CostInv s) : CostInv (markReturned s i) := by
  intro r hr
  unfold markReturned at hr ⊢
  dsimp only at hr ⊢
  rw [List.length_set]
  rcases List.mem_or_eq_of_mem_set hr with hold | hreq
  · obtain ⟨h1, h2, h3⟩ := h r hold
    exact ⟨h1, by rw [dailyRate_set_available]; exact h2, h3⟩
  · subst hreq
    obtain ⟨h1, h2, h3⟩ := h (s.rentals.getD i default) (getD_mem default hi)
    exact ⟨h1, by rw [dailyRate_set_available]; exact h2, h3⟩

theorem costInv_returnCar {s : CarRentalSystem} (rid : String) (now : ℤ)
    (h : CostInv s) : CostInv (returnCar s rid now).2 := by
  cases hfind : findFirstIdx (fun r => r.rentalId == rid && !r.returned) s.rentals with
  | none => rw [returnCar_of_none now hfind]; exact h
  | some i =>
    rw [returnCar_of_some now hfind]
    exact costInv_cleanup now
      (costInv_markReturned (findFirstIdx_some default hfind).1 h)

theorem reachable_costInv {s : CarRentalSystem} (h : Reachable s) : CostInv s := by
  induction h with
  | empty => intro r hr; simp [emptySystem] at hr
  | addCar s c _ ih =>
    intro r hr
    obtain ⟨h1, h2, h3⟩ := ih r hr
    dsimp only [addCar] at hr ⊢
    rw [List.length_append]
    exact ⟨by omega, by rw [getD_append_left default h1]; exact h2, h3⟩
  | addCustomer s c _ ih => exact ih
  | rentCar s cid vid days now _ ih => exact costInv_rentCar cid vid days now ih
  | returnCar s rid now _ ih => exact costInv_returnCar rid now ih
  | cleanup s now _ ih => exact costInv_cleanup now ih

/-! ### Concrete states used to exercise the theorems -/

/-- A sample available car with daily rate 45, as in the demo data. -/
def demoCar : Car :=
  { carId := "C1", make := "Toyota", model := "Camry", year := 2022, dailyRate := 45,
    available := true }

/-- A second sample available car. -/
def demoCar2 : Car :=
  { carId := "C2", make := "Honda", model := "Civic", year := 2021, dailyRate := 40,
    available := true }

/-- A car registered with `available = false`, as `add_car` permits. -/
def badCar : Car :=
  { carId := "B1", make := "Broken", model := "X", year := 2020, dailyRate := 10,
    available := false }

/-- A sample customer. -/
def demoCustomer : Customer :=
  { customerId := "CU1", name := "John Smith", email := "john.smith@email.com",
    phone := "555-0101" }

/-- One car and one customer registered. -/
def demoS1 : CarRentalSystem := addCustomer (addCar emptySystem demoCar) demoCustomer

/-- After renting the car for 3 days at time 0 (rental id `R0001`). -/
def demoS2 : CarRentalSystem := (rentCar demoS1 "CU1" "C1" 3 0).2

/-- After returning rental `R0001` at time 0 (retained: its end date 3 is
after the cutoff `0 - 30`). -/
def demoS3 : CarRentalSystem := (returnCar demoS2 (rentalIdFor 1) 0).2

/-- After a cleanup at time 100: the returned rental ends at 3, before the
cutoff `100 - 30 = 70`, so it is discarded. -/
def demoS4 : CarRentalSystem := (cleanupOldRentals demoS3 100).2

/-- Two cars and one customer registered. -/
def demoT0 : CarRentalSystem :=
  addCustomer (addCar (addCar emptySystem demoCar) demoCar2) demoCustomer

/-- After renting the first of the two cars for 3 days at time 0. -/
def demoT1 : CarRentalSystem := (rentCar demoT0 "CU1" "C1" 3 0).2

/-! ### The claims -/

/-- Claim C1: for every manager state and current time, `cleanup_old_rentals`
retains a rental iff it is un-returned or its end date is at or after the
cutoff `now - retentionDays` (so `endTime = cutoff` is retained and
`endTime < cutoff` with `returned = true` is discarded), and the returned
count is the number of rentals discarded. -/
theorem cleanupOldRentals_spec (s : CarRentalSystem) (now : ℤ) :
    (∀ r, r ∈ (cleanupOldRentals s now).2.rentals ↔
      r ∈ s.rentals ∧ (r.returned = false ∨ now - s.rentalRetentionDays ≤ r.endDate)) ∧
    (cleanupOldRentals s now).1 + (cleanupOldRentals s now).2.rentals.length
      = s.rentals.length := by
  constructor
  · intro r
    rw [cleanup_rentals, List.mem_filter, retainRental_eq_true]
  · rw [cleanup_count, cleanup_rentals]
    have := List.length_filter_le (retainRental (now - s.rentalRetentionDays)) s.rentals
    omega

/-- Claim C2: the code, evaluated on a manager with zero vehicles, raises an
uncaught `ZeroDivisionError` (the `Except.error` branch of the embedding)
instead of returning the explicit "undefined" outcome the specification
demands. -/
theorem utilization_zeroVehicles_fault :
    calculateInventoryUtilization emptySystem = Except.error "ZeroDivisionError" := rfl

/-- Claim C8: running `cleanup_old_rentals` twice in immediate succession
(the same current time, no intervening state change) removes zero rentals
the second time. -/
theorem cleanupOldRentals_idempotent (s : CarRentalSystem) (now : ℤ) :
    (cleanupOldRentals (cleanupOldRentals s now).2 now).1 = 0 := by
  rw [cleanup_count, cleanup_rentals (cleanupOldRentals s now).2 now, cleanup_retention,
    cleanup_rentals s now]
  have hff : (s.rentals.filter (retainRental (now - s.rentalRetentionDays))).filter
      (retainRental (now - s.rentalRetentionDays))
      = s.rentals.filter (retainRental (now - s.rentalRetentionDays)) :=
    List.filter_eq_self.mpr (fun a ha => (List.mem_filter.mp ha).2)
  rw [hff]
  omega

/-- Claim C10: `cleanup_old_rentals` only removes rentals — the kept rentals
are a sublist of the original collection (same field values, same relative
order) — and the cars (hence every availability flag), the customers, and
the retention parameter are untouched. -/
theorem cleanupOldRentals_frame (s : CarRentalSystem) (now : ℤ) :
    List.Sublist (cleanupOldRentals s now).2.rentals s.rentals ∧
    (cleanupOldRentals s now).2.cars = s.cars ∧
    (cleanupOldRentals s now).2.customers = s.customers ∧
    (cleanupOldRentals s now).2.rentalRetentionDays = s.rentalRetentionDays :=
  ⟨by rw [cleanup_rentals]; exact List.filter_sublist _,
    cleanup_cars s now, cleanup_customers s now, cleanup_retention s now⟩

/-- Claim C6: when `return_car` finds an un-returned rental with the given id
(the scan yielding position `i`, whose rental references an existing car), it
marks that rental returned, makes the linked car available, unconditionally
runs retention cleanup on the marked state, and reports success. -/
theorem returnCar_found_spec (s : CarRentalSystem) (rid : String) (now : ℤ) (i : Nat)
    (hfind : findFirstIdx (fun r => r.rentalId == rid && !r.returned) s.rentals = some i)
    (hcar : (s.rentals.getD i default).carIdx < s.cars.length) :
    returnCar s rid now = (true, (cleanupOldRentals (markReturned s i) now).2) ∧
    ((markReturned s i).rentals.getD i default).returned = true ∧
    ((returnCar s rid now).2.cars.getD (s.rentals.getD i default).carIdx default).available
      = true := by
  have hi : i < s.rentals.length := (findFirstIdx_some default hfind).1
  refine ⟨returnCar_of_some now hfind, ?_, ?_⟩
  · unfold markReturned
    dsimp only
    rw [getD_set_self _ _ hi]
  · rw [returnCar_of_some now hfind]
    dsimp only
    rw [cleanup_cars]
    unfold markReturned
    dsimp only
    rw [getD_set_self _ _ hcar]

/-- Witness for C6: returning `R0001` in the one-rental demo state. -/
theorem returnCar_found_spec_witness :
    returnCar demoS2 (rentalIdFor 1) 0
        = (true, (cleanupOldRentals (markReturned demoS2 0) 0).2) ∧
    ((markReturned demoS2 0).rentals.getD 0 default).returned = true ∧
    ((returnCar demoS2 (rentalIdFor 1) 0).2.cars.getD
        (demoS2.rentals.getD 0 default).carIdx default).available = true :=
  returnCar_found_spec demoS2 (rentalIdFor 1) 0 0 (by decide) (by decide)

/-- Claim C7: if every rental carrying the requested id is already returned
(in particular if no rental carries it), `return_car` reports failure and
leaves the state — rentals, cars, customers, retention — exactly unchanged. -/
theorem returnCar_notFound_spec (s : CarRentalSystem) (rid : String) (now : ℤ)
    (h : ∀ r ∈ s.rentals, r.rentalId = rid → r.returned = true) :
    returnCar s rid now = (false, s) := by
  apply returnCar_of_none
  rw [findFirstIdx_eq_none]
  intro r hr
  by_cases hid : r.rentalId = rid
  · simp [hid, h r hr hid]
  · simp [hid]

/-- Witness for C7: returning the already-returned `R0001` in the demo state
changes nothing and reports failure. -/
theorem returnCar_notFound_spec_witness :
    returnCar demoS3 (rentalIdFor 1) 5 = (false, demoS3) :=
  returnCar_notFound_spec demoS3 (rentalIdFor 1) 5 (by decide)

/-- Counterexample to C4 as stated: `rent_car` performs no check on `days`.
With a registered customer and an available car, a request for `0` days — not
a positive integer — succeeds and mutates the state instead of failing. -/
theorem rentCar_noDaysCheck_counterexample :
    ¬((0 : Int) > 0) ∧
    (rentCar demoS1 "CU1" "C1" 0 0).1.isSome = true ∧
    (rentCar demoS1 "CU1" "C1" 0 0).2 ≠ demoS1 :=
  ⟨by decide, by decide, by decide⟩

/-- Claim C4 (amended): when the customer id does not resolve, the vehicle id
does not resolve, or the resolved vehicle is unavailable, `rent_car` returns
a failure outcome and the state is completely unchanged.  (The `days`
precondition of the original claim is not checked by the code.) -/
theorem rentCar_precondFailure_spec (s : CarRentalSystem) (cid vid : String)
    (days : Int) (now : ℤ)
    (h : (∀ c ∈ s.customers, c.customerId ≠ cid) ∨
         (∀ v ∈ s.cars, v.carId ≠ vid) ∨
         (∃ vi, findCarIdx s vid = some vi ∧ (s.cars.getD vi default).available = false)) :
    rentCar s cid vid days now = (none, s) := by
  rcases h with h | h | ⟨vi, hvi, hav⟩
  · have hc : findCustomerIdx s cid = none := by
      unfold findCustomerIdx
      rw [findFirstIdx_eq_none]
      intro c hcc
      simp [h c hcc]
    exact rentCar_of_noCustomer days now hc
  · cases hc : findCustomerIdx s cid with
    | none => exact rentCar_of_noCustomer days now hc
    | some ci =>
      have hv : findCarIdx s vid = none := by
        unfold findCarIdx
        rw [findFirstIdx_eq_none]
        intro v hvv
        simp [h v hvv]
      exact rentCar_of_noCar days now hc hv
  · cases hc : findCustomerIdx s cid with
    | none => exact rentCar_of_noCustomer days now hc
    | some ci => exact rentCar_of_notAvailable days now hc hvi hav

/-- Witness for the amended C4: renting with an unknown customer id fails and
leaves the demo state untouched. -/
theorem rentCar_precondFailure_spec_witness :
    rentCar demoS1 "NOPE" "C1" 3 0 = (none, demoS1) :=
  rentCar_precondFailure_spec demoS1 "NOPE" "C1" 3 0 (Or.inl (by decide))

/-- Counterexample to C3 as stated: `add_car` accepts a car whose `available`
flag is already `false`, so the manager reaches a state with an unavailable
car that is referenced by no un-returned rental — the claimed equivalence
fails. -/
theorem availability_invariant_counterexample :
    Reachable (addCar emptySystem badCar) ∧
    ((addCar emptySystem badCar).cars.getD 0 default).available = false ∧
    unreturnedCount (addCar emptySystem badCar) 0 ≠ 1 :=
  ⟨Reachable.addCar emptySystem badCar Reachable.empty, by decide, by decide⟩

/-- Claim C3 (amended): in every state reachable by the public operations in
which each car handed to `add_car` is available when added, a car's
`available` flag is `false` iff exactly one un-returned rental references it,
and no car is ever referenced by more than one un-returned rental. -/
theorem availability_iff_unreturned (s : CarRentalSystem) (h : ReachableA s) :
    (∀ i, i < s.cars.length →
      ((s.cars.getD i default).available = false ↔ unreturnedCount s i = 1)) ∧
    (∀ i, unreturnedCount s i ≤ 1) := by
  obtain ⟨hval, hcnt⟩ := reachableA_wf h
  constructor
  · intro i hi
    rw [hcnt i hi]
    cases hav : (s.cars.getD i default).available <;> simp
  · intro i
    by_cases hi : i < s.cars.length
    · rw [hcnt i hi]
      split <;> omega
    · have hzero : unreturnedCount s i = 0 := by
        unfold unreturnedCount
        rw [List.countP_eq_zero]
        intro r hr
        have := hval r hr
        simp only [Bool.and_eq_true, beq_iff_eq, not_and]
        intro he
        omega
      omega

/-- Witness for the amended C3: the demo state with one active rental. -/
theorem availability_iff_unreturned_witness :
    (∀ i, i < demoS2.cars.length →
      ((demoS2.cars.getD i default).available = false ↔ unreturnedCount demoS2 i = 1)) ∧
    (∀ i, unreturnedCount demoS2 i ≤ 1) :=
  availability_iff_unreturned demoS2
    (ReachableA.rentCar demoS1 "CU1" "C1" 3 0
      (ReachableA.addCustomer _ demoCustomer
        (ReachableA.addCar _ demoCar rfl ReachableA.empty)))

/-- Counterexample to C5 as stated: the rental id is derived from the current
collection length, so after cleanup discards the only rental, the next
successful rental reuses the removed rental's identifier `R0001`. -/
theorem rentCar_idReuse_counterexample :
    (rentCar demoS1 "CU1" "C1" 3 0).1.map Rental.rentalId = some (rentalIdFor 1) ∧
    (cleanupOldRentals demoS3 100).1 = 1 ∧
    demoS4.rentals = [] ∧
    (rentCar demoS4 "CU1" "C1" 3 100).1.map Rental.rentalId = some (rentalIdFor 1) :=
  ⟨by decide, by decide, by decide, by decide⟩

/-- Claim C5 (amended): as long as no retention cleanup (direct or inside
`return_car`) has ever discarded a rental, every successful `rent_car` call
generates an identifier distinct from that of every rental previously created
by the manager (all of which are still in the collection).  Once a removal
has happened, identifiers can repeat. -/
theorem rentCar_freshId (s : CarRentalSystem) (cid vid : String) (days : Int)
    (now : ℤ) (r : Rental) (h : NoRemovalReach s)
    (hsucc : (rentCar s cid vid days now).1 = some r) :
    ∀ old ∈ s.rentals, old.rentalId ≠ r.rentalId := by
  have hids := noRemoval_idsSequential h
  cases hc : findCustomerIdx s cid with
  | none => rw [rentCar_of_noCustomer days now hc] at hsucc; cases hsucc
  | some ci =>
    cases hv : findCarIdx s vid with
    | none => rw [rentCar_of_noCar days now hc hv] at hsucc; cases hsucc
    | some vi =>
      cases hav : (s.cars.getD vi default).available with
      | false => rw [rentCar_of_notAvailable days now hc hv hav] at hsucc; cases hsucc
      | true =>
        rw [rentCar_of_available days now hc hv hav] at hsucc
        dsimp only at hsucc
        have hr : r = Rental.create (rentalIdFor (s.rentals.length + 1)) ci vi
            (s.cars.getD vi default) now days := by
          injection hsucc with heq
          exact heq.symm
        subst hr
        intro old hold hcontra
        obtain ⟨j, hj, hgetj⟩ := List.mem_iff_getElem.mp hold
        have hdj : s.rentals.getD j default = old := by
          rw [List.getD_eq_getElem?_getD, List.getElem?_eq_getElem hj, Option.getD_some, hgetj]
        have hidj : old.rentalId = rentalIdFor (j + 1) := by
          rw [← hdj]
          exact hids j hj
        have hsame : rentalIdFor (j + 1) = rentalIdFor (s.rentals.length + 1) := by
          rw [← hidj]
          exact hcontra
        have := rentalIdFor_inj hsame
        omega

/-- Witness for the amended C5: in the two-car demo state (one rental so far,
no removals), renting the second car yields an id different from the first
rental's. -/
theorem rentCar_freshId_witness :
    (demoT1.rentals.getD 0 default).rentalId
      ≠ ((rentCar demoT1 "CU1" "C2" 2 0).1.getD default).rentalId :=
  rentCar_freshId demoT1 "CU1" "C2" 2 0 ((rentCar demoT1 "CU1" "C2" 2 0).1.getD default)
    (NoRemovalReach.rentCar demoT0 "CU1" "C1" 3 0
      (NoRemovalReach.addCustomer _ demoCustomer
        (NoRemovalReach.addCar _ demoCar2
          (NoRemovalReach.addCar _ demoCar NoRemovalReach.empty))))
    (by decide) (demoT1.rentals.getD 0 default) (by decide)

/-- Claim C9: in every reachable state, each rental's `totalCost` equals its
car's daily rate times its day count, and its `endTime` equals `startTime`
plus the day count — both as fixed at creation, since the daily rate never
changes and no operation rewrites these fields. -/
theorem rental_costs_spec (s : CarRentalSystem) (h : Reachable s) :
    ∀ r ∈ s.rentals,
      r.totalCost = (s.cars.getD r.carIdx default).dailyRate * r.days ∧
      r.endDate = r.startDate + r.days :=
  fun r hr => ⟨(reachable_costInv h r hr).2.1, (reachable_costInv h r hr).2.2⟩

/-- Witness for C9: the demo rental of the rate-45 car for 3 days costs 135. -/
theorem rental_costs_spec_witness :
    (demoS2.rentals.getD 0 default).totalCost = 135 ∧
    (demoS2.rentals.getD 0 default).totalCost
      = (demoS2.cars.getD (demoS2.rentals.getD 0 default).carIdx default).dailyRate
        * (demoS2.rentals.getD 0 default).days ∧
    (demoS2.rentals.getD 0 default).endDate
      = (demoS2.rentals.getD 0 default).startDate + (demoS2.rentals.getD 0 default).days := by
  have h := rental_costs_spec demoS2
    (Reachable.rentCar demoS1 "CU1" "C1" 3 0
      (Reachable.addCustomer _ demoCustomer (Reachable.addCar _ demoCar Reachable.empty)))
    (demoS2.rentals.getD 0 default) (by decide)
  exact ⟨by decide, h.1, h.2⟩
